import Mathlib

/-!
Verification model of the DPVS local-address (laddr) allocation core
(`src/ipvs/ip_vs_laddr.c`) and of the keepalived quorum / health
arbitration core (`tools/keepalived/keepalived/check/ipwrapper.c`).

Every definition below is a shallow embedding of the corresponding C
function; external collaborators (the `sa_pool` port allocator, `ipvs_cmd`
forwarding-plane calls, `random()`, the cross-VS lower-limit scan) are
passed in as explicit oracle parameters.  Machine integers are modelled as
`Nat`/`Int` with explicit `% 2^32` / shift-masking where the C arithmetic
overflows or is width-sensitive.
-/

set_option maxHeartbeats 1000000

/-! ## Generic list helpers (replacing in-place mutation through pointers) -/

/-- Apply `f` to the element at index `i`, leaving other positions alone. -/
def modifyIdx {α : Type} (f : α → α) : Nat → List α → List α
  | _, [] => []
  | 0, x :: xs => f x :: xs
  | n + 1, x :: xs => x :: modifyIdx f n xs

/-- Remove the element at index `i` (a `list_del` on a list of nodes). -/
def removeIdx {α : Type} : Nat → List α → List α
  | _, [] => []
  | 0, _ :: xs => xs
  | n + 1, x :: xs => x :: removeIdx n xs

/-- Index of the first element satisfying `p` (a `list_for_each` search
with `break` on first hit). -/
def findMatchIdx {α : Type} (p : α → Bool) : List α → Option Nat
  | [] => none
  | x :: xs => if p x then some 0 else (findMatchIdx p xs).map (· + 1)

theorem modifyIdx_length {α : Type} (f : α → α) (i : Nat) (l : List α) :
    (modifyIdx f i l).length = l.length := by
  induction l generalizing i with
  | nil => cases i <;> rfl
  | cons x xs ih => cases i <;> simp [modifyIdx, ih]

theorem getElem?_modifyIdx {α : Type} (f : α → α) (i j : Nat) (l : List α) :
    (modifyIdx f i l)[j]? = if i = j then (l[j]?).map f else l[j]? := by
  induction l generalizing i j with
  | nil => cases i <;> simp [modifyIdx]
  | cons x xs ih =>
    cases i with
    | zero => cases j <;> simp [modifyIdx]
    | succ n =>
      cases j with
      | zero => simp [modifyIdx]
      | succ m => simpa [modifyIdx] using ih n m

theorem findMatchIdx_lt_length {α : Type} (p : α → Bool) (l : List α) (j : Nat)
    (h : findMatchIdx p l = some j) : j < l.length := by
  induction l generalizing j with
  | nil => simp [findMatchIdx] at h
  | cons x xs ih =>
    by_cases hx : p x
    · simp [findMatchIdx, hx] at h
      simp
      omega
    · simp [findMatchIdx, hx] at h
      obtain ⟨k, hk, rfl⟩ := h
      have := ih k hk
      simp
      omega

theorem length_removeIdx {α : Type} (j : Nat) (l : List α) (h : j < l.length) :
    (removeIdx j l).length = l.length - 1 := by
  induction l generalizing j with
  | nil => simp at h
  | cons x xs ih =>
    cases j with
    | zero => simp [removeIdx]
    | succ n =>
      simp at h
      simp [removeIdx, ih n (by omega)]
      omega

/-! ## DPVS laddr pool (`struct dp_vs_laddr`, `svc->laddr_list`, `svc->laddr_curr`)

`refcnt` and `conn_counts` are `rte_atomic32_t`, i.e. signed 32-bit
counters; we model them as `Int` (no reachable state approaches the
32-bit bound, but signedness matters: the double-release bug drives
`refcnt` below zero).  `hasPool` models whether `inet_addr_ifa_get(...)
->this_sa_pool` is non-NULL for this laddr on the current worker. -/

structure LaddrRec where
  af : Nat
  addr : Nat
  refcnt : Int
  conn_counts : Int
  hasPool : Bool
deriving Repr, DecidableEq, Inhabited

/-- The round-robin cursor `svc->laddr_curr`: NULL, the list head sentinel
`&svc->laddr_list`, or a pointer to the node at index `i`. -/
inductive LCursor where
  | null : LCursor
  | head : LCursor
  | node (i : Nat) : LCursor
deriving Repr, DecidableEq

structure LPool where
  elems : List LaddrRec
  curr : LCursor
deriving Repr, DecidableEq

/-- One cursor advance of `__get_laddr_port_mode` / `__get_laddr_addr_mode`:
`laddr_curr = laddr_curr ? laddr_curr->next : laddr_list.next`, then reset
to `laddr_list.next` if the sentinel was reached.  Assumes `n > 0`
(the functions return early on an empty list). -/
def adv1 (n : Nat) : LCursor → LCursor
  | .null => .node 0
  | .head => .node 0
  | .node i => if i + 1 < n then .node (i + 1) else .node 0

/-- `step` consecutive advances (the `while (step-- > 0)` loop). -/
def advK (n : Nat) : Nat → LCursor → LCursor
  | 0, c => c
  | k + 1, c => advK n k (adv1 n c)

def cursorIdx : LCursor → Nat
  | .node i => i
  | _ => 0

/-- `__laddr_step`: 2 with probability 5% when the RS scheduler is rr/wrr
(the `random() % 100 < 5` draw is the `perturb` oracle), else 1. -/
def laddrStep (rrSched perturb : Bool) : Nat :=
  if rrSched then (if perturb then 2 else 1) else 1

/-- `__get_laddr_port_mode` / `__get_laddr_addr_mode`: advance the cursor
`step` times, take the node under the cursor, increment its `refcnt`.
Returns `none` (C: NULL) on an empty list. -/
def selectPool (step : Nat) (p : LPool) : Option Nat × LPool :=
  if p.elems.isEmpty then (none, p)
  else
    let c := advK p.elems.length step p.curr
    let i := cursorIdx c
    (some i,
     { elems := modifyIdx (fun r => { r with refcnt := r.refcnt + 1 }) i p.elems,
       curr := c })

/-- `put_laddr`: `rte_atomic32_dec(&laddr->refcnt)`. -/
def laddrPut (p : LPool) (i : Nat) : LPool :=
  { p with elems := modifyIdx (fun r => { r with refcnt := r.refcnt - 1 }) i p.elems }

/-- `__dp_vs_laddr_add_port_mode` (per-slot body of the addr-mode variant is
the same): reject a duplicate `(af, addr)`, else `list_add_tail`. -/
def laddrAdd (p : LPool) (af a : Nat) : LPool :=
  if p.elems.any (fun r => r.af == af && r.addr == a) then p
  else { p with elems := p.elems ++ [⟨af, a, 0, 0, true⟩] }

/-- `__dp_vs_laddr_del_port_mode` (identical per-slot logic in addr mode):
find the record; if `refcnt == 0`, advance the cursor to `laddr->list.next`
when it points at the record (this may be the head sentinel!) and unlink;
otherwise return busy without side effects. -/
def laddrDel (p : LPool) (af a : Nat) : LPool :=
  match findMatchIdx (fun r => r.af == af && r.addr == a) p.elems with
  | none => p
  | some j =>
    if ((p.elems.getD j default).refcnt = 0) then
      { elems := removeIdx j p.elems,
        curr :=
          match p.curr with
          | .node i =>
            if i = j then (if j + 1 = p.elems.length then .head else .node j)
            else if j < i then .node (i - 1) else .node i
          | c => c }
    else p

/-- Result of the body of the `for` trial loop of `dp_vs_laddr_bind`:
the pool, the value of the local variable `laddr` at loop exit, the
fetched `sport`, and whether the loop returned `EDPVS_RESOURCE` early
(case `__get_laddr` gave NULL). -/
structure BindLoopRes where
  pool : LPool
  laddr : Option Nat
  sport : Nat
  early : Bool
deriving Repr, DecidableEq

/-- The trial loop of `dp_vs_laddr_bind`.  `fetch i` is the `sa_fetch`
oracle for the laddr at index `i` (`none` = `EDPVS_RESOURCE`, `some p` =
success with source port `p`); `perturb t` is the `random()` draw of trial
`t`.  In addr mode (`LADDR_LCORE_MAPPING_POOL_MODE`) a selected laddr
whose per-worker pool is missing is skipped by `continue` WITHOUT
`put_laddr`; a failed `sa_fetch` does `put_laddr` and continues. -/
def bindLoop (addrMode : Bool) (fetch : Nat → Option Nat) (perturb : Nat → Bool)
    (rrSched : Bool) : Nat → Nat → LPool → Option Nat → BindLoopRes
  | 0, _, p, last => ⟨p, last, 0, false⟩
  | k + 1, t, p, last =>
    let step := if addrMode then 1 else laddrStep rrSched (perturb t)
    match selectPool step p with
    | (none, p') => ⟨p', none, 0, true⟩
    | (some i, p') =>
      if addrMode && !(p'.elems.getD i default).hasPool then
        bindLoop addrMode fetch perturb rrSched k (t + 1) p' (some i)
      else
        match fetch i with
        | none => bindLoop addrMode fetch perturb rrSched k (t + 1) (laddrPut p' i) (some i)
        | some s => ⟨p', some i, s, false⟩

inductive BindRes where
  | ok : BindRes
  | resource : BindRes
deriving Repr, DecidableEq

/-- `dp_vs_laddr_bind` (the non-trivial path: TCP/UDP, non-template):
run at most `min(16, num_laddrs)` trials; afterwards, if `laddr` is NULL
or `sport == 0`, release the refcount of the last selected laddr (when
non-NULL) and return resource-exhausted; otherwise increment
`conn_counts` and stamp the connection. -/
def dp_vs_laddr_bind (addrMode : Bool) (fetch : Nat → Option Nat)
    (perturb : Nat → Bool) (rrSched : Bool) (p : LPool) : LPool × BindRes :=
  let num := p.elems.length
  let r := bindLoop addrMode fetch perturb rrSched (min 16 num) 0 p none
  if r.early then (r.pool, .resource)
  else
    match r.laddr with
    | none => (r.pool, .resource)
    | some i =>
      if r.sport = 0 then (laddrPut r.pool i, .resource)
      else
        ({ r.pool with
            elems := modifyIdx (fun x => { x with conn_counts := x.conn_counts + 1 })
              i r.pool.elems }, .ok)

/-! ## Worker enable-mask guard (`lcore_mask`, addr-mode add/del/flush loops) -/

def RTE_MAX_LCORE : Nat := 128

/-- `1L << cid` as the x86-64 hardware evaluates it: the shift count is
taken mod 64.  For `cid = 64` the C expression shifts by the full word
width, which is undefined behaviour; this definition records the
behaviour actually produced by the generated code. -/
def lcoreBit (cid : Nat) : Nat := 1 <<< (cid % 64)

/-- The skip guard of `__dp_vs_laddr_add_addr_mode` /
`__dp_vs_laddr_del_addr_mode` / `__dp_vs_laddr_flush_addr_mode`:
`if (cid > 64 || !(lcore_mask & (1L << cid))) continue;`
so slot `cid` is operated on iff `cid ≤ 64` and the (mod-64) mask bit is
set. -/
def lcoreEnabled (mask cid : Nat) : Bool :=
  !(cid > 64 : Bool) && (mask &&& lcoreBit cid != 0)

/-- The slot predicate the spec describes: worker ids `≥ 64` are ignored
and bit `w` of the 64-bit mask decides participation. -/
def lcoreEnabledSpec (mask cid : Nat) : Bool :=
  decide (cid < 64) && ((mask >>> cid) % 2 == 1)

/-- The per-worker insertion loop of `__dp_vs_laddr_add_addr_mode`
(lines 408-416): for every `cid < RTE_MAX_LCORE` passing the mask guard
and whose `ifa->sa_pools[cid]` exists, `list_add_tail` into
`svc->pre_list[cid].laddr_list`. -/
def addAddrModeSlots (mask : Nat) (saPool : Nat → Bool)
    (slots : List (List LaddrRec)) (x : LaddrRec) : List (List LaddrRec) :=
  (List.range RTE_MAX_LCORE).foldl
    (fun sl cid =>
      if lcoreEnabled mask cid && saPool cid then
        modifyIdx (fun l => l ++ [x]) cid sl
      else sl) slots

/-! ## Laddr pool operation sequences (for the cursor invariant, C9)

A control/data-plane history over one VS pool: explicit `add`, `del`,
`select` (the selection half of `bind`), and `put` (the refcount release
performed by `dp_vs_laddr_unbind` / by the failure paths of `bind`). -/

inductive LOp where
  | add (af a : Nat) : LOp
  | del (af a : Nat) : LOp
  | sel (perturb : Bool) : LOp
  | put (i : Nat) : LOp
deriving Repr, DecidableEq

def laddrApply (rrSched : Bool) (p : LPool) : LOp → LPool
  | .add af a => laddrAdd p af a
  | .del af a => laddrDel p af a
  | .sel perturb => (selectPool (laddrStep rrSched perturb) p).2
  | .put i => laddrPut p i

def laddrRun (rrSched : Bool) (p : LPool) (ops : List LOp) : LPool :=
  ops.foldl (laddrApply rrSched) p

/-- The invariant claimed by the spec: a non-null cursor points at a live
node of the list (in particular never at the head sentinel). -/
def cursorLive (p : LPool) : Prop :=
  p.curr = .null ∨ ∃ i : Fin p.elems.length, p.curr = .node i.val

/-- The invariant the code actually maintains: the cursor is null, a live
node, or the head sentinel (the latter arises when `delete` unlinks the
tail node the cursor pointed at: `laddr->list.next` is then the
sentinel). -/
def cursorOk (p : LPool) : Prop :=
  p.curr = .null ∨ p.curr = .head ∨ ∃ i : Fin p.elems.length, p.curr = .node i.val

instance (p : LPool) : Decidable (cursorLive p) := by unfold cursorLive; infer_instance

instance (p : LPool) : Decidable (cursorOk p) := by unfold cursorOk; infer_instance

theorem adv1_node (n : Nat) (hn : 0 < n) (c : LCursor) :
    ∃ i, adv1 n c = .node i ∧ i < n := by
  cases c with
  | null => exact ⟨0, rfl, hn⟩
  | head => exact ⟨0, rfl, hn⟩
  | node i =>
    by_cases h : i + 1 < n
    · exact ⟨i + 1, by simp [adv1, h], h⟩
    · exact ⟨0, by simp [adv1, h], hn⟩

theorem advK_node (n : Nat) (hn : 0 < n) (step : Nat) (hs : 0 < step) (c : LCursor) :
    ∃ i, advK n step c = .node i ∧ i < n := by
  induction step generalizing c with
  | zero => omega
  | succ k ih =>
    cases k with
    | zero =>
      obtain ⟨i, hi, hlt⟩ := adv1_node n hn c
      exact ⟨i, by simpa [advK, hi], hlt⟩
    | succ m =>
      obtain ⟨i, hi, hlt⟩ := ih (by omega) (adv1 n c)
      exact ⟨i, by simpa [advK] using hi, hlt⟩

theorem laddrStep_pos (rrSched perturb : Bool) : 0 < laddrStep rrSched perturb := by
  cases rrSched <;> cases perturb <;> simp [laddrStep]

theorem cursorOk_apply (rrSched : Bool) (p : LPool) (op : LOp) (h : cursorOk p) :
    cursorOk (laddrApply rrSched p op) := by
  cases op with
  | add af a =>
    simp only [laddrApply, laddrAdd]
    split
    · exact h
    · rcases h with h | h | ⟨i, hi⟩
      · exact Or.inl h
      · exact Or.inr (Or.inl h)
      · refine Or.inr (Or.inr ⟨⟨i.val, ?_⟩, hi⟩)
        simp
        omega
  | del af a =>
    simp only [laddrApply, laddrDel]
    split
    · exact h
    · next j hj =>
      have hjlt := findMatchIdx_lt_length _ _ _ hj
      split
      · rcases h with h | h | ⟨i, hi⟩
        · exact Or.inl (by simp [h])
        · exact Or.inr (Or.inl (by simp [h]))
        · simp only [hi]
          by_cases hij : i.val = j
          · by_cases hjend : j + 1 = p.elems.length
            · exact Or.inr (Or.inl (by simp [hij, hjend]))
            · refine Or.inr (Or.inr ⟨⟨j, ?_⟩, by simp [hij, hjend]⟩)
              rw [length_removeIdx j _ hjlt]
              omega
          · by_cases hji : j < i.val
            · refine Or.inr (Or.inr ⟨⟨i.val - 1, ?_⟩, by simp [hij, hji]⟩)
              rw [length_removeIdx j _ hjlt]
              have := i.isLt
              omega
            · refine Or.inr (Or.inr ⟨⟨i.val, ?_⟩, by simp [hij, hji]⟩)
              rw [length_removeIdx j _ hjlt]
              have := i.isLt
              omega
      · exact h
  | sel perturb =>
    simp only [laddrApply, selectPool]
    split
    · next hemp => exact h
    · next hemp =>
      have hn : 0 < p.elems.length := by
        cases hl : p.elems with
        | nil => simp [hl] at hemp
        | cons x xs => simp [hl]
      obtain ⟨i, hi, hlt⟩ :=
        advK_node p.elems.length hn (laddrStep rrSched perturb)
          (laddrStep_pos rrSched perturb) p.curr
      refine Or.inr (Or.inr ⟨⟨i, ?_⟩, by simp [hi]⟩)
      rw [modifyIdx_length]
      exact hlt
  | put i =>
    rcases h with h | h | ⟨k, hk⟩
    · exact Or.inl h
    · exact Or.inr (Or.inl h)
    · refine Or.inr (Or.inr ⟨⟨k.val, ?_⟩, hk⟩)
      simp only [laddrApply, laddrPut]
      rw [modifyIdx_length]
      exact k.isLt

/-! ## Laddr claims -/

/-- C9 (sequence-preservation part, amended): after any sequence of add,
delete, select and refcount-release operations, the cursor is null, a
live node of the list, or the head sentinel. -/
theorem c9_cursor_invariant (rrSched : Bool) (p : LPool) (ops : List LOp)
    (h : cursorOk p) : cursorOk (laddrRun rrSched p ops) := by
  induction ops generalizing p with
  | nil => exact h
  | cons op rest ih => exact ih _ (cursorOk_apply rrSched p op h)

theorem c9_cursor_invariant_witness :
    cursorOk (laddrRun false ⟨[], .null⟩
      [.add 2 10, .add 2 11, .sel false, .put 0, .del 2 10, .sel false]) :=
  c9_cursor_invariant false ⟨[], .null⟩
    [.add 2 10, .add 2 11, .sel false, .put 0, .del 2 10, .sel false] (by decide)

/-- C9 counterexample: the claimed invariant ("the cursor, when non-null,
points at a live list node, never at the head sentinel") is violated by a
reachable state.  Starting from an empty pool: add a laddr, select it
(cursor now on the node), release the select refcount (unbind), then
delete the laddr.  `__dp_vs_laddr_del_port_mode` advances the cursor to
`laddr->list.next`, which for the tail node is the head sentinel, and the
final cursor is neither null nor a live node. -/
theorem c9_cursor_sentinel_cex :
    (laddrRun false ⟨[], .null⟩ [.add 2 10, .sel false, .put 0, .del 2 10]).curr
        = .head ∧
      ¬ cursorLive (laddrRun false ⟨[], .null⟩ [.add 2 10, .sel false, .put 0, .del 2 10]) := by
  decide

/-- C1: `dp_vs_laddr_bind` evaluated at the failing input — LPORT mode,
one configured laddr with `refcnt = 0`, `sa_fetch` exhausted.  The trial
loop selects the laddr (`refcnt` 0→1), `sa_fetch` fails, `put_laddr`
(1→0), the loop exhausts its budget; then the post-loop failure path sees
`laddr != NULL && sport == 0` and calls `put_laddr` AGAIN on a
select-refcount that is no longer held, driving `refcnt` to −1 and
breaking `refcnt ≥ conn_counts ≥ 0`. -/
theorem c1_bind_double_put :
    dp_vs_laddr_bind false (fun _ => none) (fun _ => false) false
        ⟨[⟨2, 10, 0, 0, true⟩], .null⟩
      = (⟨[⟨2, 10, -1, 0, true⟩], .node 0⟩, .resource) := by
  decide

/-- C2: `dp_vs_laddr_bind` evaluated at the failing input — LADDR mode,
two laddrs on this worker's slot, the first without a per-worker port
pool (`!ifa->this_sa_pool`), the second fetchable.  The first trial
selects laddr 0 (`refcnt` 0→1) and skips it by `continue` WITHOUT
`put_laddr`; the second trial succeeds on laddr 1.  The bind returns ok,
but the skipped laddr's `refcnt` is left at 1 instead of its prior 0. -/
theorem c2_bind_skip_leaks_refcnt :
    dp_vs_laddr_bind true (fun i => if i == 1 then some 1025 else none)
        (fun _ => false) false
        ⟨[⟨2, 10, 0, 0, false⟩, ⟨2, 11, 0, 0, true⟩], .null⟩
      = (⟨[⟨2, 10, 1, 0, false⟩, ⟨2, 11, 1, 1, true⟩], .node 1⟩, .ok) := by
  decide

/-- C8: the mask guard evaluated at the failing input `cid = 64` with
`lcore_mask = 1`.  The guard `cid > 64 || !(lcore_mask & (1L << cid))`
does not skip worker 64; it evaluates `1L << 64` (shift by the full
64-bit width, undefined behaviour; x86-64 masks the count to 0), so with
bit 0 of the mask set, slot 64 IS written by the addr-mode insertion
loop — while the spec predicate ignores every worker id ≥ 64. -/
theorem c8_lcore_mask_cid64 :
    lcoreEnabled 1 64 = true ∧
      lcoreEnabledSpec 1 64 = false ∧
      (addAddrModeSlots 1 (fun _ => true)
          (List.replicate RTE_MAX_LCORE []) ⟨2, 10, 0, 0, true⟩).getD 64 []
        = [⟨2, 10, 0, 0, true⟩] ∧
      (∀ cid : Fin 64, lcoreEnabled 1 cid.val = lcoreEnabledSpec 1 cid.val) := by
  decide

/-! ## Keepalived model (`tools/keepalived/keepalived/check/ipwrapper.c`)

`real_server_t` restricted to the fields the arbitration core reads and
writes.  `weight` is a configured non-negative `int`; `quorum` and
`hysteresis` are C `unsigned`.  Forwarding-plane calls (`ipvs_cmd`),
notifications, timer manipulation and the invocation of
`perform_svr_state` are recorded as an emitted command trace. -/

structure RS where
  weight : Nat
  alive : Bool
  set : Bool
  inhibit : Bool
  num_failed_checkers : Nat
deriving Repr, DecidableEq, Inhabited

/-- The sorry server `vs->s_svr` (fields used by the arbiter). -/
structure SSvr where
  alive : Bool
  inhibit : Bool
deriving Repr, DecidableEq

structure KVS where
  quorum : Nat
  hysteresis : Nat
  quorum_state_up : Bool
  rs : List RS
  s_svr : Option SSvr
  rs_alive_count : Int
  rs_aratio_upper_limit : Int
  rs_aratio_lower_limit : Int
  reach_lower : Bool
  timer_pending : Bool
  has_aratio_action : Bool
deriving Repr, DecidableEq

/-- Externally visible effects, in emission order.  `performSvr b` marks an
invocation of `perform_svr_state(b, ...)`. -/
inductive Cmd where
  | addDest (i : Nat) : Cmd
  | delDest (i : Nat) : Cmd
  | addSSvr : Cmd
  | delSSvr : Cmd
  | vsNotify (up : Bool) : Cmd
  | rsNotify (i : Nat) (up : Bool) : Cmd
  | performSvr (up : Bool) : Cmd
  | actionExec (upper : Bool) : Cmd
  | timerAdd : Cmd
  | timerCancel : Cmd
deriving Repr, DecidableEq

/-- `weigh_live_realservers`: sum of the weights of alive RS. -/
def weighLive : List RS → Nat
  | [] => 0
  | r :: rest => (if r.alive then r.weight else 0) + weighLive rest

def U32 : Nat := 4294967296

/-- `threshold = vs->quorum + (vs->quorum_state_up ? -1 : 1) * vs->hysteresis`
with C `unsigned` (32-bit, wrap-around) arithmetic before widening to
`long`. -/
def thresholdC (up : Bool) (q h : Nat) : Nat :=
  (q + (if up then (U32 - h % U32) % U32 else h % U32)) % U32

theorem thresholdC_up (q h : Nat) (h1 : h ≤ q) (h2 : q + h < U32) :
    thresholdC true q h = q - h := by
  simp only [U32] at h2
  simp [thresholdC, U32]
  omega

theorem thresholdC_down (q h : Nat) (h2 : q + h < U32) :
    thresholdC false q h = q + h := by
  simp only [U32] at h2
  simp only [thresholdC, U32, Bool.false_eq_true, if_false]
  omega

/-- `perform_quorum_state`: for every alive RS issue a plane add/remove
(for `add` the code briefly clears `rs->alive` before the command and
restores it right after, so the alive flag is unchanged either way); the
first argument is the index of the head of the remaining list. -/
def perform_quorum_state (add : Bool) : Nat → List RS → List RS × List Cmd
  | _, [] => ([], [])
  | i, r :: rest =>
    let pr := perform_quorum_state add (i + 1) rest
    if r.alive then
      ({ r with alive := true } :: pr.1,
        (if add then Cmd.addDest i else Cmd.delDest i) :: pr.2)
    else (r :: pr.1, pr.2)

/-- `vs->s_svr && !ISALIVE(vs->s_svr)` -/
def deadSSvr (vs : KVS) : Bool :=
  match vs.s_svr with
  | some s => !s.alive
  | none => false

/-- `!vs->s_svr || !ISALIVE(vs->s_svr)` (part of the plane-change gate of
`perform_svr_state` and `update_svr_wgt`). -/
def noLiveSSvr (vs : KVS) : Bool :=
  match vs.s_svr with
  | some s => !s.alive
  | none => true

/-- `update_quorum_state`: hysteretic quorum transition of one VS. -/
def update_quorum_state (vs : KVS) (init : Bool) : KVS × List Cmd :=
  let wsum := weighLive vs.rs
  let th := thresholdC vs.quorum_state_up vs.quorum vs.hysteresis
  if ¬vs.quorum_state_up ∧ th ≤ wsum then
    -- gained quorum
    let vs' := { vs with quorum_state_up := true }
    match vs'.s_svr with
    | some s =>
      if s.alive then
        let pr := perform_quorum_state true 0 vs'.rs
        ({ vs' with rs := pr.1, s_svr := some { s with alive := false } },
          pr.2 ++ [Cmd.delSSvr, Cmd.vsNotify true])
      else (vs', [Cmd.vsNotify true])
    | none => (vs', [Cmd.vsNotify true])
  else if (vs.quorum_state_up ∧ (wsum = 0 ∨ wsum < th)) ∨
      (init ∧ ¬vs.quorum_state_up ∧ deadSSvr vs) then
    -- lost quorum (or starting up with a sorry server to install)
    let vs' := { vs with quorum_state_up := false }
    match vs'.s_svr with
    | some s =>
      if !s.alive then
        let pr := perform_quorum_state false 0 vs'.rs
        ({ vs' with rs := pr.1, s_svr := some { s with alive := true } },
          Cmd.addSSvr :: pr.2 ++ [Cmd.vsNotify false])
      else (vs', [Cmd.vsNotify false])
    | none => (vs', [Cmd.vsNotify false])
  else (vs, [])

/-- C integer division (both operands are C ints here); division by zero
is undefined behaviour, modelled as `none`. -/
def cIntDiv (a : Int) (b : Nat) : Option Int :=
  if b = 0 then none else some (a.tdiv b)

/-- `vs_rs_aratio_state`: alive-ratio bookkeeping on an RS up/down
transition.  `allLower` is the result of the cross-VS scan
`all_vs_rs_aratio_reach_lower_limit(vs)` (it reads global `check_data`).
The ratio `vs->rs_alive_count*100/LIST_SIZE(vs->rs)` is computed without
any guard on an empty RS list. -/
def vs_rs_aratio_state (alive allLower : Bool) (vs : KVS) :
    Option (KVS × List Cmd) :=
  if alive then
    let vs := { vs with rs_alive_count := vs.rs_alive_count + 1 }
    match cIntDiv (vs.rs_alive_count * 100) vs.rs.length with
    | none => none
    | some ratio =>
      if vs.rs_aratio_upper_limit ≤ ratio ∧ vs.reach_lower then
        if vs.timer_pending then some (vs, [])
        else some ({ vs with timer_pending := true }, [Cmd.timerAdd])
      else some (vs, [])
  else
    let vs := { vs with rs_alive_count := vs.rs_alive_count - 1 }
    match cIntDiv (vs.rs_alive_count * 100) vs.rs.length with
    | none => none
    | some ratio =>
      let step1 : KVS × List Cmd :=
        if ratio ≤ vs.rs_aratio_lower_limit then
          let vs := { vs with reach_lower := true }
          if allLower ∧ vs.has_aratio_action then (vs, [Cmd.actionExec false])
          else (vs, [])
        else (vs, [])
      if ratio < step1.1.rs_aratio_upper_limit ∧ step1.1.timer_pending then
        some ({ step1.1 with timer_pending := false }, step1.2 ++ [Cmd.timerCancel])
      else some step1

/-- `rs_aratio_reach_upper_limit`: the debounce-timer handler.  Clears the
timer handle, recomputes the ratio (again without an empty-list guard);
if still at/above the upper limit, clears the reached-lower flag and runs
the operator action with "upper". -/
def rs_aratio_reach_upper_limit (vs : KVS) : Option (KVS × List Cmd) :=
  let vs := { vs with timer_pending := false }
  match cIntDiv (vs.rs_alive_count * 100) vs.rs.length with
  | none => none
  | some ratio =>
    if vs.rs_aratio_upper_limit ≤ ratio then
      some ({ vs with reach_lower := false },
        if vs.has_aratio_action then [Cmd.actionExec true] else [])
    else some (vs, [])

/-- `checker_t` restricted to the fields the arbitration core touches.
`rsId` is the back-reference `checker->rs` as an index into `vs->rs`;
`cmpId` abstracts the function pointer `checker->compare` (`none` =
NULL); the pointed-to predicate itself is the `compFn` oracle. -/
structure Checker where
  rsId : Nat
  is_up : Bool
  has_run : Bool
  alpha : Bool
  retry : Nat
  retry_it : Nat
  cmpId : Option Nat
deriving Repr, DecidableEq, Inhabited

/-- `set_checker_state`: flip `checker->is_up` and adjust
`checker->rs->num_failed_checkers` (increment on down,
guarded/saturating decrement on up); no-op if already in that state. -/
def set_checker_state (up : Bool) (c : Checker) (vs : KVS) : Checker × KVS :=
  if c.is_up = up then (c, vs)
  else
    ({ c with is_up := up },
     { vs with
        rs := modifyIdx
          (fun r =>
            if !up then { r with num_failed_checkers := r.num_failed_checkers + 1 }
            else if r.num_failed_checkers ≠ 0 then
              { r with num_failed_checkers := r.num_failed_checkers - 1 }
            else r)
          c.rsId vs.rs })

/-- `perform_svr_state(alive, checker)`: the RS-level alive transition.
`planeOk` is the result of the guarded `ipvs_cmd` (add/del dest); if the
command is issued and fails, the function returns false having changed
nothing.  Otherwise `rs->alive` is flipped, RS notifications are sent,
the alive-ratio watchdog and the quorum arbiter run.  The returned `Bool`
is the C return value.  `none` models the crash/UB paths (invalid
`checker->rs`, division by zero in the watchdog). -/
def perform_svr_state (alive : Bool) (rsIdx : Nat) (planeOk allLower : Bool)
    (vs : KVS) : Option (KVS × List Cmd × Bool) :=
  match vs.rs[rsIdx]? with
  | none => none
  | some r =>
    if r.alive = alive then some (vs, [Cmd.performSvr alive], true)
    else
      let proceed : List Cmd → Option (KVS × List Cmd × Bool) := fun acc =>
        let vs1 := { vs with
          rs := modifyIdx (fun x => { x with alive := alive }) rsIdx vs.rs }
        match vs_rs_aratio_state alive allLower vs1 with
        | none => none
        | some (vs2, cmds2) =>
          let u := update_quorum_state vs2 false
          some (u.1, acc ++ Cmd.rsNotify rsIdx alive :: cmds2 ++ u.2, true)
      if vs.quorum_state_up || noLiveSSvr vs then
        if planeOk then
          proceed [Cmd.performSvr alive,
            if alive then Cmd.addDest rsIdx else Cmd.delDest rsIdx]
        else
          some (vs, [Cmd.performSvr alive,
            if alive then Cmd.addDest rsIdx else Cmd.delDest rsIdx], false)
      else
        proceed [Cmd.performSvr alive]

/-- `update_svr_checker_state(alive, checker)`: convert a per-checker
health report into checker/RS state.  On a non-transition first run,
notify (alpha or down) and mark `has_run`.  On a transition, mark
`has_run`, call `perform_svr_state` when this checker is decisive
(`num_failed_checkers ≤ 1` for up, `== 0` for down), abandoning the
update if it returns false, and finally `set_checker_state`. -/
def update_svr_checker_state (alive : Bool) (c : Checker)
    (planeOk allLower : Bool) (vs : KVS) : Option (Checker × KVS × List Cmd) :=
  if c.is_up = alive then
    if !c.has_run then
      some ({ c with has_run := true }, vs,
        if c.alpha || !alive then [Cmd.rsNotify c.rsId alive] else [])
    else some (c, vs, [])
  else
    let c := { c with has_run := true }
    match vs.rs[c.rsId]? with
    | none => none
    | some r =>
      if (if alive then r.num_failed_checkers ≤ 1 else r.num_failed_checkers = 0) then
        match perform_svr_state alive c.rsId planeOk allLower vs with
        | none => none
        | some (vs1, cmds1, ok) =>
          if ok then
            let s := set_checker_state alive c vs1
            some (s.1, s.2, cmds1)
          else some (c, vs1, cmds1)
      else
        let s := set_checker_state alive c vs
        some (s.1, s.2, [])

/-! ### `migrate_checkers` (reload path), staged exactly as in the C body -/

/-- Stage 1 of `migrate_checkers`: for every new checker of this RS with a
non-NULL compare, find the first old checker of the old RS with the same
compare pointer and a positive `compare(old, new)`; copy state.  `is_up`
is transferred through `set_checker_state` ONLY when the old checker has
run and the values differ (the transient `num_failed_checkers` updates
are threaded through `vs`); `has_run` and `retry_it` are copied
unconditionally on a match. -/
def migrateStep1 (compFn : Checker → Checker → Bool) (l : List Checker)
    (idx : Nat) (c : Checker) (vs : KVS) : Checker × KVS :=
  if c.rsId = idx ∧ c.cmpId ≠ none then
    match l.find? (fun o => o.cmpId == c.cmpId && compFn o c) with
    | some o =>
      let pa : Checker × KVS :=
        if o.has_run ∧ c.is_up ≠ o.is_up then set_checker_state o.is_up c vs
        else (c, vs)
      ({ pa.1 with has_run := o.has_run, retry_it := o.retry_it }, pa.2)
    | none => (c, vs)
  else (c, vs)

def migrateStage1 (compFn : Checker → Checker → Bool) (l : List Checker)
    (idx : Nat) : List Checker → KVS → KVS × List Checker
  | [], vs => (vs, [])
  | c :: rest, vs =>
    let p1 := migrateStep1 compFn l idx c vs
    let rest' := migrateStage1 compFn l idx rest p1.2
    (rest'.1, p1.1 :: rest'.2)

/-- The per-checker value computed by stage 1 (the threaded
`num_failed_checkers` side effects do not feed back into it). -/
def migrateOne (compFn : Checker → Checker → Bool) (l : List Checker)
    (idx : Nat) (c : Checker) : Checker :=
  if c.rsId = idx ∧ c.cmpId ≠ none then
    match l.find? (fun o => o.cmpId == c.cmpId && compFn o c) with
    | some o =>
      { c with is_up := if o.has_run then o.is_up else c.is_up,
               has_run := o.has_run, retry_it := o.retry_it }
    | none => c
  else c

/-- The recount loop of `migrate_checkers`: `(num_failed_checkers,
a_checker_has_run)` over the new checkers of this RS. -/
def migrateRecount (idx : Nat) : List Checker → Nat × Bool
  | [] => (0, false)
  | c :: rest =>
    let p := migrateRecount idx rest
    if c.rsId = idx then
      ((if c.has_run ∧ c.is_up = false then p.1 + 1 else p.1), (c.has_run || p.2))
    else p

/-- Stage 4 of `migrate_checkers`: when failures remain (or the RS is not
alive and no checker has run), mark each not-yet-run alpha checker down
via `set_checker_state` and reset its retry budget. -/
def migrateStep4 (idx : Nat) (c : Checker) (vs : KVS) : Checker × KVS :=
  if c.rsId = idx ∧ ¬c.has_run then
    let pa : Checker × KVS :=
      if c.alpha then set_checker_state false c vs else (c, vs)
    ({ pa.1 with retry_it := pa.1.retry }, pa.2)
  else (c, vs)

def migrateStage4 (idx : Nat) : List Checker → KVS → KVS × List Checker
  | [], vs => (vs, [])
  | c :: rest, vs =>
    let p1 := migrateStep4 idx c vs
    let rest' := migrateStage4 idx rest p1.2
    (rest'.1, p1.1 :: rest'.2)

/-- `migrate_checkers(vs, old_rs, new_rs, old_checkers_queue)`:
`oldRsId` identifies the old RS (old checkers are matched by
`old_c->rs == old_rs`), `idx` is the index of the surviving RS in
`vs.rs`, `newQ` is the global `checkers_queue`. -/
def migrate_checkers (compFn : Checker → Checker → Bool) (oldRsId idx : Nat)
    (oldQ newQ : List Checker) (planeOk allLower : Bool) (vs : KVS) :
    Option (KVS × List Checker × List Cmd) :=
  let l := oldQ.filter (fun o => o.rsId == oldRsId)
  let s1 := migrateStage1 compFn l idx newQ vs
  let rc := migrateRecount idx s1.2
  let vs2 := { s1.1 with
    rs := modifyIdx (fun r => { r with num_failed_checkers := rc.1 }) idx s1.1.rs }
  let rAlive := ((vs2.rs[idx]?).map RS.alive).getD false
  let s4 :=
    if rc.1 ≠ 0 ∨ (¬rAlive ∧ ¬rc.2) then migrateStage4 idx s1.2 vs2 else (vs2, s1.2)
  match s4.1.rs[idx]? with
  | none => none
  | some r =>
    if r.num_failed_checkers = 0 ∧ ¬r.alive then
      match perform_svr_state true idx planeOk allLower s4.1 with
      | none => none
      | some (vs4, cmds, _) => some (vs4, s4.2, cmds)
    else if r.num_failed_checkers ≠ 0 ∧ r.set ≠ r.inhibit then
      some (s4.1, s4.2, [if r.inhibit then Cmd.addDest idx else Cmd.delDest idx])
    else some (s4.1, s4.2, [])

/-! ## Supporting lemmas -/

/-- `perform_quorum_state` leaves the RS list unchanged as a value: only
alive RS are touched and their alive flag is rewritten to `true`. -/
theorem pqs_fst (add : Bool) (i : Nat) (l : List RS) :
    (perform_quorum_state add i l).1 = l := by
  induction l generalizing i with
  | nil => rfl
  | cons r rest ih =>
    by_cases hr : r.alive
    · have he : ({ r with alive := true } : RS) = r := by
        cases r
        simp_all
      simp [perform_quorum_state, hr, ih, he]
    · simp [perform_quorum_state, hr, ih]

/-- Every alive RS gets a plane remove from `perform_quorum_state false`. -/
theorem pqs_delDest_mem (l : List RS) (i k : Nat) (r : RS)
    (hk : l[k]? = some r) (hr : r.alive = true) :
    Cmd.delDest (i + k) ∈ (perform_quorum_state false i l).2 := by
  induction l generalizing i k with
  | nil => simp at hk
  | cons x xs ih =>
    cases k with
    | zero =>
      simp at hk
      subst hk
      simp [perform_quorum_state, hr]
    | succ m =>
      simp at hk
      have hmem := ih (i + 1) m hk
      have harith : i + (m + 1) = (i + 1) + m := by omega
      by_cases hx : x.alive <;>
        simp [perform_quorum_state, hx, harith, hmem]

/-- `update_quorum_state` never changes `quorum`, `hysteresis`, or (as a
value) the RS list. -/
theorem uqs_fields (vs : KVS) (init : Bool) :
    (update_quorum_state vs init).1.quorum = vs.quorum ∧
      (update_quorum_state vs init).1.hysteresis = vs.hysteresis ∧
      (update_quorum_state vs init).1.rs = vs.rs := by
  simp only [update_quorum_state]
  refine ⟨?_, ?_, ?_⟩ <;> (repeat' split) <;> simp [pqs_fst]

/-- Characterization of the quorum state after one evaluation (with
`hysteresis ≤ quorum` and no 32-bit wrap, so the thresholds are the
mathematical `Q − H` / `Q + H`). -/
theorem uqs_up_char (vs : KVS) (init : Bool) (hq : vs.hysteresis ≤ vs.quorum)
    (hlt : vs.quorum + vs.hysteresis < U32) :
    ((update_quorum_state vs init).1.quorum_state_up = true ↔
      (vs.quorum_state_up = true ∧ weighLive vs.rs ≠ 0 ∧
        vs.quorum - vs.hysteresis ≤ weighLive vs.rs) ∨
      (vs.quorum_state_up = false ∧ vs.quorum + vs.hysteresis ≤ weighLive vs.rs)) := by
  cases hup : vs.quorum_state_up with
  | false =>
    simp only [update_quorum_state, hup, thresholdC_down _ _ hlt]
    repeat' split
    all_goals simp_all
    all_goals omega
  | true =>
    simp only [update_quorum_state, hup, thresholdC_up _ _ hq hlt]
    repeat' split
    all_goals simp_all
    all_goals omega

/-- One evaluation inside the open hysteresis band `[Q−H, Q+H)` (with
non-zero weight sum) leaves the quorum state untouched. -/
theorem uqs_stable (vs : KVS) (init : Bool) (hq : vs.hysteresis ≤ vs.quorum)
    (hlt : vs.quorum + vs.hysteresis < U32)
    (h0 : weighLive vs.rs ≠ 0)
    (h1 : vs.quorum - vs.hysteresis ≤ weighLive vs.rs)
    (h2 : weighLive vs.rs < vs.quorum + vs.hysteresis) :
    (update_quorum_state vs init).1.quorum_state_up = vs.quorum_state_up := by
  have hc := uqs_up_char vs init hq hlt
  cases hup : vs.quorum_state_up with
  | true =>
    rw [hup] at hc
    simp only [hc]
    simp [h0, h1]
  | false =>
    rw [hup] at hc
    cases hres : (update_quorum_state vs init).1.quorum_state_up with
    | false => rfl
    | true =>
      rw [hres] at hc
      have := hc.mp rfl
      simp at this
      omega

/-- A sequence of quorum evaluations: each step installs the externally
updated RS list into the VS and runs `update_quorum_state`. -/
def runQuorumSeq (vs : KVS) (envs : List (List RS × Bool)) : KVS :=
  envs.foldl (fun v e => (update_quorum_state { v with rs := e.1 } e.2).1) vs

theorem runQuorumSeq_stable (q h : Nat) (hq : h ≤ q) (hlt : q + h < U32) :
    ∀ (envs : List (List RS × Bool)) (v : KVS), v.quorum = q → v.hysteresis = h →
      (∀ e ∈ envs, weighLive e.1 ≠ 0 ∧ q - h ≤ weighLive e.1 ∧
        weighLive e.1 < q + h) →
      (runQuorumSeq v envs).quorum_state_up = v.quorum_state_up
  | [], _, _, _, _ => rfl
  | e :: rest, v, hvq, hvh, hall => by
    have he := hall e (by simp)
    have hstep := uqs_stable { v with rs := e.1 } e.2
      (by simp [hvq, hvh, hq]) (by simp [hvq, hvh]; simpa [U32] using hlt)
      he.1 (by simpa [hvq, hvh] using he.2.1) (by simpa [hvq, hvh] using he.2.2)
    have hfields := uqs_fields { v with rs := e.1 } e.2
    have hrest := runQuorumSeq_stable q h hq hlt rest
      (update_quorum_state { v with rs := e.1 } e.2).1
      (by rw [hfields.1]; simpa using hvq)
      (by rw [hfields.2.1]; simpa using hvh)
      (fun x hx => hall x (by simp [hx]))
    calc (runQuorumSeq v (e :: rest)).quorum_state_up
        = (runQuorumSeq (update_quorum_state { v with rs := e.1 } e.2).1 rest).quorum_state_up := rfl
      _ = (update_quorum_state { v with rs := e.1 } e.2).1.quorum_state_up := hrest
      _ = v.quorum_state_up := hstep

/-! ## C3: quorum transitions and hysteresis -/

/-- Amended C3: transitions are characterized by `W == 0 ∨ W < Q − H`
(Up→Down) and `W ≥ Q + H` (Down→Up); the no-oscillation band is the
half-open `Q−H ≤ W < Q+H` (at `W = Q+H` a VS that is down comes up). -/
def C3Spec (vs : KVS) (init : Bool) (envs : List (List RS × Bool)) : Prop :=
  ((update_quorum_state vs init).1.quorum_state_up = true ↔
    (vs.quorum_state_up = true ∧ weighLive vs.rs ≠ 0 ∧
      vs.quorum - vs.hysteresis ≤ weighLive vs.rs) ∨
    (vs.quorum_state_up = false ∧ vs.quorum + vs.hysteresis ≤ weighLive vs.rs)) ∧
  ((∀ e ∈ envs, weighLive e.1 ≠ 0 ∧ vs.quorum - vs.hysteresis ≤ weighLive e.1 ∧
      weighLive e.1 < vs.quorum + vs.hysteresis) →
    (runQuorumSeq vs envs).quorum_state_up = vs.quorum_state_up)

/-- C3 (amended): for every VS with `H ≤ Q` (no wrap of the C `unsigned`
threshold arithmetic), `update_quorum_state` flips Up→Down exactly when
`W == 0 ∨ W < Q − H`, flips Down→Up exactly when `W ≥ Q + H`, and across
any sequence of evaluations whose weight sums stay in `[Q−H, Q+H)` and
never hit zero the quorum state never changes. -/
theorem c3_quorum_transitions (vs : KVS) (init : Bool)
    (envs : List (List RS × Bool)) (hq : vs.hysteresis ≤ vs.quorum)
    (hlt : vs.quorum + vs.hysteresis < U32) : C3Spec vs init envs :=
  ⟨uqs_up_char vs init hq hlt,
   fun hall => runQuorumSeq_stable vs.quorum vs.hysteresis hq hlt envs vs rfl rfl hall⟩

def c3wVS : KVS :=
  { quorum := 3, hysteresis := 1, quorum_state_up := false,
    rs := [⟨2, true, true, false, 0⟩], s_svr := none, rs_alive_count := 1,
    rs_aratio_upper_limit := 100, rs_aratio_lower_limit := 0,
    reach_lower := false, timer_pending := false, has_aratio_action := false }

theorem c3_quorum_transitions_witness :
    C3Spec c3wVS false [([⟨2, true, true, false, 0⟩], false), ([⟨3, true, true, false, 0⟩], true)] :=
  c3_quorum_transitions c3wVS false
    [([⟨2, true, true, false, 0⟩], false), ([⟨3, true, true, false, 0⟩], true)]
    (by decide) (by decide)

/-- C3 counterexample: the claim's closed band `Q−H ≤ W ≤ Q+H` does NOT
prevent a transition.  With `Q = 3`, `H = 1`, quorum down and a single
alive RS of weight 4 we have `W = 4 = Q + H` inside the claimed band (and
`W ≠ 0`), yet one evaluation flips the state to up. -/
theorem c3_hysteresis_boundary_cex :
    (update_quorum_state
        { quorum := 3, hysteresis := 1, quorum_state_up := false,
          rs := [⟨4, true, true, false, 0⟩], s_svr := none, rs_alive_count := 1,
          rs_aratio_upper_limit := 100, rs_aratio_lower_limit := 0,
          reach_lower := false, timer_pending := false,
          has_aratio_action := false } false).1.quorum_state_up = true ∧
      weighLive [⟨4, true, true, false, 0⟩] ≠ 0 ∧
      3 - 1 ≤ weighLive [⟨4, true, true, false, 0⟩] ∧
      weighLive [⟨4, true, true, false, 0⟩] ≤ 3 + 1 := by
  decide

/-! ## C4: effects of an Up→Down transition -/

/-- Amended C4: on every Up→Down transition the quorum state drops, the
RS alive flags are untouched and the VS-down notification fires; the
sorry-server install and the plane-level removes of the alive RS happen
iff a sorry server is configured and not alive — with no sorry server
(or one already alive) NO plane removes are issued. -/
def C4Spec (vs : KVS) (init : Bool) : Prop :=
  (update_quorum_state vs init).1.quorum_state_up = false ∧
  (update_quorum_state vs init).1.rs = vs.rs ∧
  Cmd.vsNotify false ∈ (update_quorum_state vs init).2 ∧
  (∀ s, vs.s_svr = some s → s.alive = false →
    Cmd.addSSvr ∈ (update_quorum_state vs init).2 ∧
    (update_quorum_state vs init).1.s_svr = some { s with alive := true } ∧
    ∀ i r, vs.rs[i]? = some r → r.alive = true →
      Cmd.delDest i ∈ (update_quorum_state vs init).2) ∧
  ((vs.s_svr = none ∨ ∃ s, vs.s_svr = some s ∧ s.alive = true) →
    (update_quorum_state vs init).2 = [Cmd.vsNotify false])

theorem c4_down_transition_effects (vs : KVS) (init : Bool)
    (hq : vs.hysteresis ≤ vs.quorum) (hlt : vs.quorum + vs.hysteresis < U32)
    (hup : vs.quorum_state_up = true)
    (hW : weighLive vs.rs = 0 ∨ weighLive vs.rs < vs.quorum - vs.hysteresis) :
    C4Spec vs init := by
  have hth := thresholdC_up vs.quorum vs.hysteresis hq hlt
  unfold C4Spec
  refine ⟨?_, (uqs_fields vs init).2.2, ?_, ?_, ?_⟩
  · simp only [update_quorum_state, hup, hth]
    repeat' split
    all_goals simp_all
  · simp only [update_quorum_state, hup, hth]
    repeat' split
    all_goals simp_all
    all_goals omega
  · intro s hs halive
    simp only [update_quorum_state, hup, hth, hs]
    repeat' split
    all_goals simp_all
    all_goals
      try (intro i r hir hralive; simpa using pqs_delDest_mem vs.rs 0 i r hir hralive)
    all_goals omega
  · intro hno
    simp only [update_quorum_state, hup, hth]
    repeat' split
    all_goals simp_all
    all_goals omega

def c4wVS : KVS :=
  { quorum := 5, hysteresis := 1, quorum_state_up := true,
    rs := [⟨1, true, true, false, 0⟩, ⟨3, false, false, false, 1⟩],
    s_svr := some ⟨false, false⟩, rs_alive_count := 1,
    rs_aratio_upper_limit := 100, rs_aratio_lower_limit := 0,
    reach_lower := false, timer_pending := false, has_aratio_action := false }

theorem c4_down_transition_effects_witness : C4Spec c4wVS false :=
  c4_down_transition_effects c4wVS false (by decide) (by decide) (by decide)
    (by decide)

/-- C4 counterexample: on an Up→Down transition of a VS WITHOUT a sorry
server, the code issues no plane-level remove at all — the only emitted
command is the VS-down notification — even though an alive RS exists.
The claim ("issues a forwarding-plane remove for each alive RS" on every
Up→Down transition) is false at this input. -/
theorem c4_down_no_removal_cex :
    (update_quorum_state
        { quorum := 5, hysteresis := 1, quorum_state_up := true,
          rs := [⟨1, true, true, false, 0⟩], s_svr := none, rs_alive_count := 1,
          rs_aratio_upper_limit := 100, rs_aratio_lower_limit := 0,
          reach_lower := false, timer_pending := false,
          has_aratio_action := false } false).2 = [Cmd.vsNotify false] ∧
      (update_quorum_state
        { quorum := 5, hysteresis := 1, quorum_state_up := true,
          rs := [⟨1, true, true, false, 0⟩], s_svr := none, rs_alive_count := 1,
          rs_aratio_upper_limit := 100, rs_aratio_lower_limit := 0,
          reach_lower := false, timer_pending := false,
          has_aratio_action := false } false).1.quorum_state_up = false ∧
      (⟨1, true, true, false, 0⟩ : RS).alive = true := by
  decide

/-! ## C7: alive-ratio division by zero -/

def c7emptyVS : KVS :=
  { quorum := 1, hysteresis := 0, quorum_state_up := true, rs := [],
    s_svr := none, rs_alive_count := 0, rs_aratio_upper_limit := 80,
    rs_aratio_lower_limit := 20, reach_lower := true, timer_pending := true,
    has_aratio_action := true }

/-- C7: the ratio computation is NOT total.  Both the RS up/down handler
`vs_rs_aratio_state` and the debounce-timer handler
`rs_aratio_reach_upper_limit` evaluate
`vs->rs_alive_count*100/LIST_SIZE(vs->rs)` with no guard, so on a VS with
an empty RS list they divide by zero (undefined behaviour, modelled as
`none`) instead of defining the ratio as 0 and suppressing the
watchdog. -/
theorem c7_aratio_div_by_zero :
    rs_aratio_reach_upper_limit c7emptyVS = none ∧
      vs_rs_aratio_state true false c7emptyVS = none ∧
      vs_rs_aratio_state false false c7emptyVS = none ∧
      c7emptyVS.rs = [] := by
  decide

/-! ## Totality facts used by the checker-path claims -/

/-- On a VS with a non-empty RS list the watchdog succeeds and leaves the
RS list itself untouched (it only moves counters, flags and the timer). -/
theorem aratio_some (alive allLower : Bool) (vs : KVS) (h : vs.rs.length ≠ 0) :
    ∃ q, vs_rs_aratio_state alive allLower vs = some q ∧ q.1.rs = vs.rs := by
  cases alive with
  | true =>
    simp only [vs_rs_aratio_state, cIntDiv, if_neg h]
    repeat' split
    all_goals exact ⟨_, rfl, rfl⟩
  | false =>
    simp only [vs_rs_aratio_state, cIntDiv, if_neg h]
    repeat' split
    all_goals exact ⟨_, rfl, rfl⟩

/-- With a valid RS back-reference and a succeeding plane command,
`perform_svr_state` returns true and never touches any
`num_failed_checkers`. -/
theorem perform_svr_state_ok (alive : Bool) (rsIdx : Nat) (allLower : Bool)
    (vs : KVS) (r : RS) (hr : vs.rs[rsIdx]? = some r) :
    ∃ t, perform_svr_state alive rsIdx true allLower vs = some t ∧
      t.2.2 = true ∧
      Cmd.performSvr alive ∈ t.2.1 ∧
      (∀ j : Nat, (t.1.rs[j]?).map RS.num_failed_checkers
          = (vs.rs[j]?).map RS.num_failed_checkers) := by
  have hlt : rsIdx < vs.rs.length := by
    by_contra hc
    push_neg at hc
    rw [List.getElem?_eq_none hc] at hr
    exact Option.noConfusion hr
  have hlen : (modifyIdx (fun x => { x with alive := alive }) rsIdx vs.rs).length ≠ 0 := by
    rw [modifyIdx_length]
    omega
  obtain ⟨⟨vs2, cmds2⟩, hqq, hrs⟩ := aratio_some alive allLower
    { vs with rs := modifyIdx (fun x => { x with alive := alive }) rsIdx vs.rs } hlen
  have hnum : ∀ j : Nat,
      (((update_quorum_state vs2 false).1).rs[j]?).map RS.num_failed_checkers
        = (vs.rs[j]?).map RS.num_failed_checkers := by
    intro j
    rw [(uqs_fields vs2 false).2.2, hrs]
    simp only [getElem?_modifyIdx]
    split
    · cases vs.rs[j]? <;> simp
    · rfl
  simp only [perform_svr_state, hr]
  split
  · refine ⟨_, rfl, rfl, ?_, ?_⟩
    · simp
    · exact fun j => rfl
  · split
    · simp only [if_pos rfl, hqq]
      refine ⟨_, rfl, rfl, ?_, ?_⟩
      · simp
      · exact hnum
    · simp only [hqq]
      refine ⟨_, rfl, rfl, ?_, ?_⟩
      · simp
      · exact hnum

/-! ## C10: failed plane command aborts the checker update atomically -/

/-- C10: when the transition is real (`checker.is_up != alive`,
`rs.alive != alive`), the checker is decisive, the plane-change gate is
open and the issued `ipvs_cmd` fails, `update_svr_checker_state` returns
with the VS (hence `rs.alive` and `rs.num_failed_checkers`) and
`checker.is_up` all at their prior values — only `has_run` is set — so a
later report of the same result retries the full transition. -/
theorem c10_plane_fail_atomic (alive : Bool) (c : Checker) (allLower : Bool)
    (vs : KVS) (r : RS)
    (hr : vs.rs[c.rsId]? = some r)
    (hc : ¬ c.is_up = alive)
    (hra : ¬ r.alive = alive)
    (hnf : if alive then r.num_failed_checkers ≤ 1 else r.num_failed_checkers = 0)
    (hgate : (vs.quorum_state_up || noLiveSSvr vs) = true) :
    update_svr_checker_state alive c false allLower vs =
      some ({ c with has_run := true }, vs,
        [Cmd.performSvr alive,
         if alive then Cmd.addDest c.rsId else Cmd.delDest c.rsId]) := by
  simp only [update_svr_checker_state, if_neg hc]
  rw [hr]
  simp only [perform_svr_state, hr, if_neg hra, if_pos hnf, if_pos hgate,
    Bool.false_eq_true, if_false]

def c10wVS : KVS :=
  { quorum := 1, hysteresis := 0, quorum_state_up := true,
    rs := [⟨1, true, true, false, 0⟩], s_svr := none, rs_alive_count := 1,
    rs_aratio_upper_limit := 100, rs_aratio_lower_limit := 0,
    reach_lower := false, timer_pending := false, has_aratio_action := false }

def c10wChk : Checker :=
  { rsId := 0, is_up := true, has_run := true, alpha := false, retry := 2,
    retry_it := 0, cmpId := none }

theorem c10_plane_fail_atomic_witness :
    update_svr_checker_state false c10wChk false false c10wVS =
      some ({ c10wChk with has_run := true }, c10wVS,
        [Cmd.performSvr false, Cmd.delDest 0]) :=
  c10_plane_fail_atomic false c10wChk false c10wVS ⟨1, true, true, false, 0⟩
    (by decide) (by decide) (by decide) (by decide) (by decide)

/-! ## C5: checker transition bookkeeping -/

/-- Amended C5 at one input: on a transition whose plane command (if any)
succeeds, `perform_svr_state(alive)` is invoked iff the checker is
decisive (`num_failed_checkers ≤ 1` on up, `== 0` on down), and
afterwards `is_up = alive`, `has_run` is set, and `num_failed_checkers`
is incremented on down / saturating-decremented on up. -/
def C5Spec (alive : Bool) (c : Checker) (allLower : Bool) (vs : KVS)
    (r : RS) : Prop :=
  ∃ t, update_svr_checker_state alive c true allLower vs = some t ∧
    (Cmd.performSvr alive ∈ t.2.2 ↔
      (if alive then r.num_failed_checkers ≤ 1 else r.num_failed_checkers = 0)) ∧
    t.1.is_up = alive ∧
    t.1.has_run = true ∧
    ((t.2.1.rs[c.rsId]?).map RS.num_failed_checkers
      = some (if alive then r.num_failed_checkers - 1
              else r.num_failed_checkers + 1))

/-- The `num_failed_checkers` adjustment done by `set_checker_state`. -/
theorem set_checker_adj (alive : Bool) (r1 : RS) :
    ((fun r =>
        if !alive then { r with num_failed_checkers := r.num_failed_checkers + 1 }
        else if r.num_failed_checkers ≠ 0 then
          { r with num_failed_checkers := r.num_failed_checkers - 1 }
        else r) r1).num_failed_checkers
      = if alive then r1.num_failed_checkers - 1 else r1.num_failed_checkers + 1 := by
  cases alive with
  | false => rfl
  | true =>
    by_cases h0 : r1.num_failed_checkers = 0
    · simp [h0]
    · simp [h0]

theorem c5_checker_transition (alive : Bool) (c : Checker) (allLower : Bool)
    (vs : KVS) (r : RS)
    (hr : vs.rs[c.rsId]? = some r)
    (hc : ¬ c.is_up = alive) : C5Spec alive c allLower vs r := by
  unfold C5Spec
  by_cases hcond :
      (if alive then r.num_failed_checkers ≤ 1 else r.num_failed_checkers = 0)
  · simp only [update_svr_checker_state, if_neg hc, hr]
    rw [if_pos hcond]
    obtain ⟨⟨vs1, cmds1, ok⟩, ht, hok, hmem, hnum⟩ :=
      perform_svr_state_ok alive c.rsId allLower vs r hr
    rw [ht]
    simp only at hok
    subst hok
    simp only [if_pos rfl, set_checker_state]
    rw [if_neg hc]
    have hnum1 := hnum c.rsId
    rw [hr] at hnum1
    refine ⟨_, rfl, ?_, by simp, by simp, ?_⟩
    · simpa using ⟨fun _ => hcond, fun _ => hmem⟩
    · simp only
      rw [getElem?_modifyIdx, if_pos rfl]
      cases hvs1 : vs1.rs[c.rsId]? with
      | none => rw [hvs1] at hnum1; simp at hnum1
      | some r1 =>
        rw [hvs1] at hnum1
        simp at hnum1
        cases alive <;> by_cases h0 : r1.num_failed_checkers = 0 <;>
          simp [h0, ← hnum1]
  · simp only [update_svr_checker_state, if_neg hc, hr]
    rw [if_neg hcond]
    simp only [set_checker_state]
    rw [if_neg hc]
    refine ⟨_, rfl, ?_, by simp, by simp, ?_⟩
    · simp [hcond]
    · simp only
      rw [getElem?_modifyIdx, if_pos rfl, hr]
      cases alive <;> by_cases h0 : r.num_failed_checkers = 0 <;> simp [h0]

def c5wVS : KVS :=
  { quorum := 1, hysteresis := 0, quorum_state_up := true,
    rs := [⟨1, true, true, false, 0⟩], s_svr := none, rs_alive_count := 1,
    rs_aratio_upper_limit := 100, rs_aratio_lower_limit := 0,
    reach_lower := false, timer_pending := false, has_aratio_action := false }

def c5wChk : Checker :=
  { rsId := 0, is_up := true, has_run := true, alpha := false, retry := 2,
    retry_it := 0, cmpId := none }

theorem c5_checker_transition_witness :
    C5Spec false c5wChk false c5wVS ⟨1, true, true, false, 0⟩ :=
  c5_checker_transition false c5wChk false c5wVS ⟨1, true, true, false, 0⟩
    (by decide) (by decide)

def c5xVS : KVS :=
  { quorum := 1, hysteresis := 0, quorum_state_up := true,
    rs := [⟨1, true, true, false, 0⟩], s_svr := none, rs_alive_count := 1,
    rs_aratio_upper_limit := 100, rs_aratio_lower_limit := 0,
    reach_lower := false, timer_pending := false, has_aratio_action := false }

def c5xChk : Checker :=
  { rsId := 0, is_up := true, has_run := true, alpha := false, retry := 2,
    retry_it := 0, cmpId := none }

/-- C5 counterexample: the claim's unconditional "afterwards is_up is set
to alive and num_failed_checkers is incremented on down" fails when the
plane command issued by the invoked `perform_svr_state` fails: the
checker reports down (a transition, first failure, gate open), but
`is_up` stays `true` and `num_failed_checkers` stays `0`. -/
theorem c5_plane_fail_cex :
    c5xChk.is_up = true ∧
      (update_svr_checker_state false c5xChk false false c5xVS).map
          (fun t => (t.1.is_up, (t.2.1.rs.getD 0 default).num_failed_checkers))
        = some (true, 0) := by
  decide

/-! ## C6: checker migration on reload -/

/-- The fields of an RS that `migrate_checkers` never changes before its
final decision (`num_failed_checkers` is the one it rewrites). -/
def rsASI (r : RS) : Bool × Bool × Bool := (r.alive, r.set, r.inhibit)

theorem set_checker_state_rs (up : Bool) (c : Checker) (vs : KVS) :
    (set_checker_state up c vs).2.rs.length = vs.rs.length ∧
      ∀ j : Nat, (((set_checker_state up c vs).2.rs[j]?).map rsASI)
        = (vs.rs[j]?).map rsASI := by
  unfold set_checker_state
  split
  · exact ⟨rfl, fun j => rfl⟩
  · constructor
    · simp [modifyIdx_length]
    · intro j
      simp only [getElem?_modifyIdx]
      split
      · cases hx : vs.rs[j]? with
        | none => simp
        | some r =>
          cases up <;> by_cases h0 : r.num_failed_checkers = 0 <;>
            simp [rsASI, h0]
      · rfl

theorem migrateStep1_fst (compFn : Checker → Checker → Bool) (l : List Checker)
    (idx : Nat) (c : Checker) (vs : KVS) :
    (migrateStep1 compFn l idx c vs).1 = migrateOne compFn l idx c := by
  unfold migrateStep1 migrateOne
  by_cases h1 : c.rsId = idx ∧ c.cmpId ≠ none
  · rw [if_pos h1, if_pos h1]
    cases hf : l.find? (fun o => o.cmpId == c.cmpId && compFn o c) with
    | none => rfl
    | some o =>
      by_cases hcond : o.has_run = true ∧ c.is_up ≠ o.is_up
      · simp only [if_pos hcond, set_checker_state, if_neg hcond.2]
        simp [hcond.1]
      · simp only [if_neg hcond]
        by_cases hrun : o.has_run = true
        · have heq : c.is_up = o.is_up := by
            by_contra hny
            exact hcond ⟨hrun, hny⟩
          simp [hrun, ← heq]
        · simp [hrun]
  · rw [if_neg h1, if_neg h1]

theorem migrateStep1_rs (compFn : Checker → Checker → Bool) (l : List Checker)
    (idx : Nat) (c : Checker) (vs : KVS) :
    (migrateStep1 compFn l idx c vs).2.rs.length = vs.rs.length ∧
      ∀ j : Nat, (((migrateStep1 compFn l idx c vs).2.rs[j]?).map rsASI)
        = (vs.rs[j]?).map rsASI := by
  unfold migrateStep1
  split
  · split
    · split
      · exact set_checker_state_rs _ _ _
      · exact ⟨rfl, fun j => rfl⟩
    · exact ⟨rfl, fun j => rfl⟩
  · exact ⟨rfl, fun j => rfl⟩

theorem migrateStep4_rs (idx : Nat) (c : Checker) (vs : KVS) :
    (migrateStep4 idx c vs).2.rs.length = vs.rs.length ∧
      ∀ j : Nat, (((migrateStep4 idx c vs).2.rs[j]?).map rsASI)
        = (vs.rs[j]?).map rsASI := by
  unfold migrateStep4
  split
  · split
    · exact set_checker_state_rs _ _ _
    · exact ⟨rfl, fun j => rfl⟩
  · exact ⟨rfl, fun j => rfl⟩

theorem migrateStage1_snd (compFn : Checker → Checker → Bool) (l : List Checker)
    (idx : Nat) : ∀ (q : List Checker) (vs : KVS),
    (migrateStage1 compFn l idx q vs).2 = q.map (migrateOne compFn l idx)
  | [], _ => rfl
  | c :: rest, vs => by
    simp only [migrateStage1, List.map_cons]
    rw [migrateStage1_snd compFn l idx rest _, migrateStep1_fst]

theorem migrateStage1_rs (compFn : Checker → Checker → Bool) (l : List Checker)
    (idx : Nat) : ∀ (q : List Checker) (vs : KVS),
    (migrateStage1 compFn l idx q vs).1.rs.length = vs.rs.length ∧
      ∀ j : Nat, (((migrateStage1 compFn l idx q vs).1.rs[j]?).map rsASI)
        = (vs.rs[j]?).map rsASI
  | [], _ => ⟨rfl, fun j => rfl⟩
  | c :: rest, vs => by
    have hstep := migrateStep1_rs compFn l idx c vs
    have hrest := migrateStage1_rs compFn l idx rest
      (migrateStep1 compFn l idx c vs).2
    simp only [migrateStage1]
    exact ⟨hrest.1.trans hstep.1, fun j => (hrest.2 j).trans (hstep.2 j)⟩

theorem migrateStage4_rs (idx : Nat) : ∀ (q : List Checker) (vs : KVS),
    (migrateStage4 idx q vs).1.rs.length = vs.rs.length ∧
      ∀ j : Nat, (((migrateStage4 idx q vs).1.rs[j]?).map rsASI)
        = (vs.rs[j]?).map rsASI
  | [], _ => ⟨rfl, fun j => rfl⟩
  | c :: rest, vs => by
    have hstep := migrateStep4_rs idx c vs
    have hrest := migrateStage4_rs idx rest (migrateStep4 idx c vs).2
    simp only [migrateStage4]
    exact ⟨hrest.1.trans hstep.1, fun j => (hrest.2 j).trans (hstep.2 j)⟩

theorem migrateRecount_countP (idx : Nat) : ∀ q : List Checker,
    (migrateRecount idx q).1
      = q.countP (fun c => c.rsId == idx && (c.has_run && !c.is_up))
  | [] => rfl
  | c :: rest => by
    have ih := migrateRecount_countP idx rest
    simp only [migrateRecount, List.countP_cons]
    by_cases hrs : c.rsId = idx
    · by_cases hb : c.has_run ∧ c.is_up = false
      · simp [hrs, hb, ih, hb.1, hb.2]
      · rw [if_pos hrs, if_neg hb]
        have hfalse : (c.rsId == idx && (c.has_run && !c.is_up)) = false := by
          by_cases h1 : c.has_run
          · have h2 : c.is_up = true := by
              by_contra hup
              exact hb ⟨h1, by simpa using hup⟩
            simp [h1, h2]
          · simp [h1]
        simp [hfalse, ih]
    · simp [hrs, ih]

/-- Amended C6 at one input (surviving RS `idx` of `vs`, old checkers of
`oldRsId`, plane commands succeeding): (a) a matched new checker receives
`has_run` and `retry_it` from the old checker, and `is_up` ONLY when the
old checker has run (otherwise it keeps its initial value); (b) the
recount equals the number of this RS's new checkers that have run and
are down; (c) the synthesised alive transition happens iff the FINAL
`num_failed_checkers` — after not-yet-run alpha checkers may have been
marked down — is zero and the RS was not alive; (d) with failures
remaining and `set ≠ inhibit` the corresponding plane add/del is the
whole command output. -/
def C6Spec (compFn : Checker → Checker → Bool) (oldRsId idx : Nat)
    (oldQ newQ : List Checker) (allLower : Bool) (vs : KVS) (r0 : RS) : Prop :=
  (∀ j : Nat, ∀ c o : Checker, newQ[j]? = some c → c.rsId = idx →
      c.cmpId ≠ none →
      (oldQ.filter (fun o2 => o2.rsId == oldRsId)).find?
          (fun o2 => o2.cmpId == c.cmpId && compFn o2 c) = some o →
      ((migrateStage1 compFn (oldQ.filter (fun o2 => o2.rsId == oldRsId))
          idx newQ vs).2)[j]?
        = some { c with is_up := if o.has_run then o.is_up else c.is_up,
                        has_run := o.has_run, retry_it := o.retry_it }) ∧
  ((migrateRecount idx (migrateStage1 compFn
        (oldQ.filter (fun o2 => o2.rsId == oldRsId)) idx newQ vs).2).1
      = ((migrateStage1 compFn (oldQ.filter (fun o2 => o2.rsId == oldRsId))
          idx newQ vs).2).countP
          (fun c => c.rsId == idx && (c.has_run && !c.is_up))) ∧
  (∃ t, migrate_checkers compFn oldRsId idx oldQ newQ true allLower vs
      = some t ∧
    (Cmd.performSvr true ∈ t.2.2 ↔
      ((t.1.rs[idx]?).map RS.num_failed_checkers = some 0 ∧
        r0.alive = false)) ∧
    (∀ n : Nat, (t.1.rs[idx]?).map RS.num_failed_checkers = some n →
      n ≠ 0 → r0.set ≠ r0.inhibit →
      t.2.2 = [if r0.inhibit then Cmd.addDest idx else Cmd.delDest idx]))

theorem c6_migrate_checkers (compFn : Checker → Checker → Bool)
    (oldRsId idx : Nat) (oldQ newQ : List Checker) (allLower : Bool)
    (vs : KVS) (r0 : RS) (hr0 : vs.rs[idx]? = some r0) :
    C6Spec compFn oldRsId idx oldQ newQ allLower vs r0 := by
  unfold C6Spec
  refine ⟨?_, migrateRecount_countP idx _, ?_⟩
  · intro j c o hj hrs hcmp hfind
    rw [migrateStage1_snd, List.getElem?_map, hj]
    show some (migrateOne compFn (oldQ.filter (fun o2 => o2.rsId == oldRsId))
      idx c) = _
    rw [migrateOne, if_pos (⟨hrs, hcmp⟩ : c.rsId = idx ∧ c.cmpId ≠ none), hfind]
  · simp only [migrate_checkers]
    set l := oldQ.filter (fun o2 => o2.rsId == oldRsId) with hldef
    set s1 := migrateStage1 compFn l idx newQ vs with hs1def
    set rc := migrateRecount idx s1.2 with hrcdef
    set vs2 := { s1.1 with
      rs := modifyIdx (fun r => { r with num_failed_checkers := rc.1 })
        idx s1.1.rs } with hvs2def
    set rAlive := ((vs2.rs[idx]?).map RS.alive).getD false with hradef
    set s4 := (if rc.1 ≠ 0 ∨ (¬rAlive ∧ ¬rc.2) then migrateStage4 idx s1.2 vs2
      else (vs2, s1.2)) with hs4def
    have h1 := migrateStage1_rs compFn l idx newQ vs
    have h2len : vs2.rs.length = vs.rs.length := by
      rw [hvs2def]
      simp only [modifyIdx_length]
      exact h1.1
    have h2proj : ∀ j : Nat, ((vs2.rs[j]?).map rsASI) = (vs.rs[j]?).map rsASI := by
      intro j
      rw [hvs2def]
      simp only [getElem?_modifyIdx]
      split
      · cases hx : s1.1.rs[j]? with
        | none =>
          have hthis := h1.2 j
          rw [hx] at hthis
          simpa using hthis
        | some rr =>
          have hthis := h1.2 j
          rw [hx] at hthis
          rw [← hthis]
          simp [rsASI]
      · exact h1.2 j
    have h4 : s4.1.rs.length = vs.rs.length ∧
        ∀ j : Nat, ((s4.1.rs[j]?).map rsASI) = (vs.rs[j]?).map rsASI := by
      rw [hs4def]
      split
      · have hst := migrateStage4_rs idx s1.2 vs2
        exact ⟨hst.1.trans h2len, fun j => (hst.2 j).trans (h2proj j)⟩
      · exact ⟨h2len, h2proj⟩
    have hfin : ∃ rf, s4.1.rs[idx]? = some rf ∧ rsASI rf = rsASI r0 := by
      have hj := h4.2 idx
      rw [hr0] at hj
      cases hx : s4.1.rs[idx]? with
      | none => rw [hx] at hj; simp at hj
      | some rf =>
        rw [hx] at hj
        simp at hj
        exact ⟨rf, rfl, hj⟩
    obtain ⟨rf, hrf, hasi⟩ := hfin
    have halive : rf.alive = r0.alive := congrArg (fun p => p.1) hasi
    have hset : rf.set = r0.set := congrArg (fun p => p.2.1) hasi
    have hinh : rf.inhibit = r0.inhibit := congrArg (fun p => p.2.2) hasi
    rw [hrf]
    dsimp only
    by_cases hb1 : rf.num_failed_checkers = 0 ∧ ¬rf.alive = true
    · rw [if_pos hb1]
      obtain ⟨⟨vs4, cmds4, ok4⟩, ht, hok, hmem, hnum⟩ :=
        perform_svr_state_ok true idx allLower s4.1 rf hrf
      rw [ht]
      have hn4 : (vs4.rs[idx]?).map RS.num_failed_checkers
          = some rf.num_failed_checkers := by
        have hh := hnum idx
        rw [hrf] at hh
        simpa using hh
      refine ⟨_, rfl, ?_, ?_⟩
      · constructor
        · intro _
          constructor
          · simpa [hn4] using hb1.1
          · rw [← halive]
            simpa using hb1.2
        · intro _
          exact hmem
      · intro n hn hnz hsi
        simp only [hn4] at hn
        simp at hn
        omega
    · rw [if_neg hb1]
      by_cases hb2 : rf.num_failed_checkers ≠ 0 ∧ rf.set ≠ rf.inhibit
      · rw [if_pos hb2]
        refine ⟨_, rfl, ?_, ?_⟩
        · constructor
          · intro hin
            rw [List.mem_singleton] at hin
            split at hin <;> exact Cmd.noConfusion hin
          · intro hrhs
            rw [hrf] at hrhs
            simp at hrhs
            exact absurd hrhs.1 hb2.1
        · intro n hn hnz hsi
          rw [hinh]
      · rw [if_neg hb2]
        refine ⟨_, rfl, ?_, ?_⟩
        · constructor
          · intro hin
            simp at hin
          · intro hrhs
            rw [hrf] at hrhs
            simp at hrhs
            by_cases hz : rf.num_failed_checkers = 0
            · have hfalse : rf.alive = false := by rw [halive]; exact hrhs.2
              exact absurd ⟨hz, by simp [hfalse]⟩ hb1
            · exact absurd hrhs.1 hz
        · intro n hn hnz hsi
          rw [hrf] at hn
          simp at hn
          subst hn
          refine absurd ⟨hnz, ?_⟩ hb2
          intro he
          exact hsi (by rw [← hset, ← hinh]; exact he)

def c6wVS : KVS :=
  { quorum := 1, hysteresis := 0, quorum_state_up := false,
    rs := [⟨1, false, false, false, 1⟩], s_svr := none, rs_alive_count := 0,
    rs_aratio_upper_limit := 100, rs_aratio_lower_limit := 0,
    reach_lower := false, timer_pending := false, has_aratio_action := false }

def c6wOld : List Checker := [⟨0, true, true, false, 1, 0, some 7⟩]

def c6wNew : List Checker := [⟨0, true, false, false, 1, 1, some 7⟩]

theorem c6_migrate_checkers_witness :
    C6Spec (fun _ _ => true) 0 0 c6wOld c6wNew false c6wVS
      ⟨1, false, false, false, 1⟩ :=
  c6_migrate_checkers (fun _ _ => true) 0 0 c6wOld c6wNew false c6wVS
    ⟨1, false, false, false, 1⟩ (by decide)

def c6xVS : KVS :=
  { quorum := 1, hysteresis := 0, quorum_state_up := false,
    rs := [⟨1, false, false, false, 0⟩], s_svr := none, rs_alive_count := 0,
    rs_aratio_upper_limit := 100, rs_aratio_lower_limit := 0,
    reach_lower := false, timer_pending := false, has_aratio_action := false }

def c6xNew : List Checker := [⟨0, true, false, true, 1, 0, some 1⟩]

/-- C6 counterexample: a not-alive surviving RS with a single new ALPHA
checker that has not run (and no old checkers).  The number of new
checkers that have run and are down is 0 — before and after migration —
and the RS was not previously alive, so the claim demands a synthesised
alive transition.  The code instead runs the post-recount alpha
adjustment, marks the unrun alpha checker down
(`num_failed_checkers` 0→1), and synthesises NOTHING: the command trace
is empty and the RS stays dead. -/
theorem c6_alpha_pending_cex :
    (migrate_checkers (fun _ _ => false) 0 0 [] c6xNew true false c6xVS).map
        (fun t => (t.2.2, (t.1.rs.getD 0 default).alive,
          (t.1.rs.getD 0 default).num_failed_checkers,
          t.2.1.countP (fun c => c.rsId == 0 && (c.has_run && !c.is_up))))
      = some ([], false, 1, 0) ∧
      (c6xVS.rs.getD 0 default).alive = false := by
  decide
